import Mathlib

/-!
BouncingBoxes: a verification of the incremental-redraw sketch

Shallow embedding of `src/BouncingBoxes.ino`.  The C++ `float` state is
modelled with exact rationals (`ℚ`), the integer cell coordinates with `ℤ`,
and the Arduino `random(a, b)` draws are passed in as explicit integer
parameters constrained to the half-open range `[a, b)` that `random`
produces.  Drawing calls (`tft.fillRect`) are reified as `Rect` values so
that the pixel sets the sketch touches can be reasoned about exactly.
-/

namespace BouncingBoxes

/-- C float→int conversion truncates toward zero. -/
def trunc (q : ℚ) : ℤ := if 0 ≤ q then ⌊q⌋ else ⌈q⌉

/-- One `tft.fillRect(x, y, w, h, …)` rectangle. -/
structure Rect where
  x : ℤ
  y : ℤ
  w : ℤ
  h : ℤ
deriving DecidableEq, Repr

/-- Pixel `p` is covered by rectangle `R` (half-open on both axes). -/
def Rect.mem (R : Rect) (p : ℤ × ℤ) : Prop :=
  R.x ≤ p.1 ∧ p.1 < R.x + R.w ∧ R.y ≤ p.2 ∧ p.2 < R.y + R.h

instance (R : Rect) (p : ℤ × ℤ) : Decidable (R.mem p) := by
  unfold Rect.mem; infer_instance

/-- The box of half-side `r` whose cell (center) is `(cx, cy)`:
`[cx - r, cx + r) × [cy - r, cy + r)`. -/
def inBox (cx cy r : ℤ) (p : ℤ × ℤ) : Prop :=
  cx - r ≤ p.1 ∧ p.1 < cx + r ∧ cy - r ≤ p.2 ∧ p.2 < cy + r

instance (cx cy r : ℤ) (p : ℤ × ℤ) : Decidable (inBox cx cy r p) := by
  unfold inBox; infer_instance

/-- Model of `class Ball`: continuous position `(x, y)` and speed
`(dx, dy)` (C++ `float`, modelled exactly), new integer position `(ix, iy)`,
old integer position `(ox, oy)`, and the per-ball constants. -/
structure Ball where
  x : ℚ
  y : ℚ
  dx : ℚ
  dy : ℚ
  ix : ℤ
  iy : ℤ
  ox : ℤ
  oy : ℤ
  radius : ℕ
  color : ℕ
deriving Repr

/-- Constructor `Ball::Ball()`.  The C++ constructor assigns only `radius`, `color`,
`x`, `y`, `dx` and `dy`; the members `ix`, `iy`, `ox`, `oy` are left
untouched, so they keep whatever indeterminate values `g` the storage held.
`rr` is the draw `random(6, 12)`, `rc` the draw `random(BLACK, WHITE)`,
`px`/`py` the integer draws `random(radius, width-radius)` /
`random(radius, height-radius)`, and `sdx`/`sdy` the draws `random(20, 45)`
divided by `10.0`. -/
def Ball.init (g : Ball) (rr rc : ℕ) (px py sdx sdy : ℤ) : Ball :=
  { g with
    radius := rr
    color := rc
    x := (px : ℚ)
    y := (py : ℚ)
    dx := (sdx : ℚ) / 10
    dy := (sdy : ℚ) / 10 }

/-- Method `Ball::move()`.  `W`/`H` are `tft.width()`/`tft.height()`; `rx` is the
draw `random(20, 45)` used if the wall bounce fires, `ry` the draw
`random(-45, -20)` used if the ground bounce fires. -/
def Ball.move (b : Ball) (W H : ℚ) (rx ry : ℤ) : Ball :=
  let ox := b.ix
  let oy := b.iy
  let dx :=
    if b.x + b.dx ≤ (b.radius : ℚ) ∨ b.x + b.dx ≥ W - (b.radius : ℚ) then
      (rx : ℚ) / 10 * (if b.dx > 0 then -1 else 1)
    else b.dx
  let dy :=
    if b.y + b.dy ≥ H - (b.radius : ℚ) then (ry : ℚ) / 10
    else b.dy + 1/20
  let x := b.x + dx
  let y := b.y + dy
  { b with
    x := x, y := y, dx := dx, dy := dy
    ix := trunc x, iy := trunc y, ox := ox, oy := oy }

/-- Method `Ball::erase()`: the list of background fill rectangles issued, in
program order (horizontal gap first, then vertical gap). -/
def Ball.eraseRects (b : Ball) : List Rect :=
  let mx := b.ix - b.ox
  let my := b.iy - b.oy
  let r : ℤ := (b.radius : ℤ)
  (if mx > 0 then [⟨b.ox - r, b.oy - r, mx, 2 * r⟩]
   else if mx < 0 then [⟨b.ox + r + mx, b.oy - r, -mx, 2 * r⟩]
   else []) ++
  (if my > 0 then [⟨b.ox - r, b.oy - r, 2 * r, my⟩]
   else if my < 0 then [⟨b.ox - r, b.oy + r + my, 2 * r, -my⟩]
   else [])

/-- Method `Ball::draw()`: the single fill rectangle, in the color of the ball. -/
def Ball.drawRect (b : Ball) : Rect :=
  ⟨b.ix - (b.radius : ℤ), b.iy - (b.radius : ℤ),
   (b.radius : ℤ) * 2, (b.radius : ℤ) * 2⟩

/-- Some pixel erased by `Ball::erase()` covers `p`. -/
def Ball.erasedAt (b : Ball) (p : ℤ × ℤ) : Prop :=
  ∃ R ∈ b.eraseRects, R.mem p

instance (b : Ball) (p : ℤ × ℤ) : Decidable (b.erasedAt p) := by
  unfold Ball.erasedAt; infer_instance

/-- Index-aware map: models a range-for over the ball array with the loop
index made explicit, used to thread per-ball random draws and to tag the
per-ball events. -/
def mapFrom {α β : Type} (f : ℕ → α → β) : ℕ → List α → List β
  | _, [] => []
  | i, a :: as => f i a :: mapFrom f (i + 1) as

/-- One per-ball operation of the `loop()` body, tagged with the index of
the ball it acts on.  An erase carries the fill rectangles it issues, a
draw its fill rectangle and color. -/
inductive Ev where
  | moveB : ℕ → Ev
  | eraseB : ℕ → List Rect → Ev
  | drawB : ℕ → Rect → ℕ → Ev
deriving DecidableEq, Repr

/-- The index of the ball an event acts on. -/
def Ev.idx : Ev → ℕ
  | .moveB i => i
  | .eraseB i _ => i
  | .drawB i _ _ => i

/-- The pass an event belongs to: 0 for move, 1 for erase, 2 for draw. -/
def Ev.kind : Ev → ℕ
  | .moveB _ => 0
  | .eraseB _ _ => 1
  | .drawB _ _ _ => 2

/-- Global mutable state of the sketch: `lastms` and the ball array. -/
structure SimState where
  lastms : ℕ
  balls : List Ball

/-- Arduino `unsigned long` subtraction `ms - lastms`: 32-bit wraparound. -/
def uldiff (a b : ℕ) : ℕ := (a % 2 ^ 32 + (2 ^ 32 - b % 2 ^ 32)) % 2 ^ 32

/-- Function `loop()`: if fewer than 6 ms elapsed since `lastms` (the code tests
`ms - lastms <= 5`), return with no mutation and no drawing; otherwise set
`lastms := ms` and run the three passes — move every ball, erase every
ball, draw every ball.  each ball receives its random draws for this
tick from `rs`; the returned list is the trace of per-ball operations in execution
order. -/
def loopStep (W H : ℚ) (rs : ℕ → ℤ × ℤ) (s : SimState) (ms : ℕ) :
    SimState × List Ev :=
  if uldiff ms s.lastms ≤ 5 then (s, [])
  else
    let moved := mapFrom (fun i b => b.move W H (rs i).1 (rs i).2) 0 s.balls
    ({ lastms := ms, balls := moved },
      mapFrom (fun i _ => Ev.moveB i) 0 moved
        ++ mapFrom (fun i b => Ev.eraseB i b.eraseRects) 0 moved
        ++ mapFrom (fun i b => Ev.drawB i b.drawRect b.color) 0 moved)

lemma mapFrom_length {α β : Type} (f : ℕ → α → β) :
    ∀ (i : ℕ) (l : List α), (mapFrom f i l).length = l.length := by
  intro i l
  induction l generalizing i with
  | nil => rfl
  | cons a as ih => simp [mapFrom, ih]

lemma mapFrom_map {α β γ : Type} (f : ℕ → α → β) (g : β → γ) :
    ∀ (i : ℕ) (l : List α),
      (mapFrom f i l).map g = mapFrom (fun j a => g (f j a)) i l := by
  intro i l
  induction l generalizing i with
  | nil => rfl
  | cons a as ih => simp [mapFrom, ih]

lemma mapFrom_const {α β : Type} (c : β) :
    ∀ (i : ℕ) (l : List α),
      mapFrom (fun _ _ => c) i l = List.replicate l.length c := by
  intro i l
  induction l generalizing i with
  | nil => rfl
  | cons a as ih => simp [mapFrom, List.replicate, ih]

lemma mapFrom_idx {α : Type} :
    ∀ (i : ℕ) (l : List α),
      mapFrom (fun j _ => j) i l = List.range' i l.length := by
  intro i l
  induction l generalizing i with
  | nil => rfl
  | cons a as ih => simp [mapFrom, List.range', ih]

/-! ## Concrete states used as inputs -/

/-- Indeterminate storage contents a freshly allocated `Ball` object may
hold before its constructor runs; here the cell members happen to hold
`ix = iy = 1` and `ox = oy = 0`. -/
def garbage : Ball := ⟨0, 0, 0, 0, 1, 1, 0, 0, 0, 0⟩

/-- A post-move ball whose cell moved from `(0,0)` to `(1,1)`, radius 6. -/
def bCorner : Ball := ⟨1, 1, 1, 1, 1, 1, 0, 0, 6, 0⟩

/-! ## Claims -/

/-- C1 (code bug): `Ball::Ball()` assigns only `radius`, `color`, position
and speed; it never writes `ix`, `iy`, `ox`, `oy`, so `previousCell` and
`currentCell` keep their indeterminate pre-construction values and need
not be equal immediately after construction — contrary to the requirement
`previousCell := currentCell` at construction time. -/
theorem c1_constructor_leaves_cells_indeterminate :
    (Ball.init garbage 8 0 50 50 30 30).ox = garbage.ox ∧
    (Ball.init garbage 8 0 50 50 30 30).ix = garbage.ix ∧
    (Ball.init garbage 8 0 50 50 30 30).ox ≠
      (Ball.init garbage 8 0 50 50 30 30).ix := by
  exact ⟨rfl, rfl, by decide⟩

/-- End-to-end scenario of the spec: radius 10, position `(50, 50)`,
velocity `(3, 3)`, cells consistent with the position. -/
def bScn : Ball := ⟨50, 50, 3, 3, 50, 50, 50, 50, 10, 5⟩

/-- The scenario ball after one `move()` on a 240×320 surface.  Neither
bounce fires, so the random draws (here `30` and `-30`) are unused. -/
def bScnMoved : Ball := bScn.move 240 320 30 (-30)

/-- C3 (counterexample): in the end-to-end scenario the horizontal erase strip
is at `x ∈ [40, 43)` (the trailing edge `[50-10, 53-10)`), not at
`x ∈ [60, 63)` as claimed: the pixel `(60, 50)` lies in the claimed strip
but in neither cleared rectangle — it is inside the newly drawn box. -/
theorem c3_erase_strip_not_at_60 :
    Ball.eraseRects bScnMoved = [⟨40, 40, 3, 20⟩, ⟨40, 40, 20, 3⟩] ∧
    ¬ Rect.mem ⟨40, 40, 3, 20⟩ ((60, 50) : ℤ × ℤ) ∧
    ¬ Rect.mem ⟨40, 40, 20, 3⟩ ((60, 50) : ℤ × ℤ) ∧
    Rect.mem (Ball.drawRect bScnMoved) ((60, 50) : ℤ × ℤ) := by
  refine ⟨?_, by decide, by decide, ?_⟩ <;>
    norm_num [bScnMoved, bScn, Ball.move, trunc, Ball.eraseRects,
      Ball.drawRect, Rect.mem]

/-- C3 (amended): on a 240×320 surface, one `move()` of the scenario ball
yields `currentCell = (53, 53)` and `previousCell = (50, 50)`; the erase
pass clears a 3-wide by 20-tall strip at `x ∈ [50-10, 53-10) = [40, 43)`
(the trailing horizontal edge) plus a 20-wide by 3-tall strip at
`y ∈ [40, 43)` (the trailing vertical edge); the render pass fills a
20×20 box centered at `(53, 53)`. -/
theorem c3_scenario :
    bScnMoved.ix = 53 ∧ bScnMoved.iy = 53 ∧
    bScnMoved.ox = 50 ∧ bScnMoved.oy = 50 ∧
    Ball.eraseRects bScnMoved = [⟨40, 40, 3, 20⟩, ⟨40, 40, 20, 3⟩] ∧
    Ball.drawRect bScnMoved = ⟨43, 43, 20, 20⟩ := by
  refine ⟨?_, ?_, ?_, ?_, ?_, ?_⟩ <;>
    norm_num [bScnMoved, bScn, Ball.move, trunc, Ball.eraseRects,
      Ball.drawRect]

/-- A ball about to bounce off the right wall of a 240-wide surface. -/
def bWall : Ball := ⟨228, 50, 3, 3, 228, 50, 228, 50, 10, 0⟩

/-- A ball resting exactly on the ground bound of a 240-tall surface with
a small upward residual speed. -/
def bGround : Ball := ⟨50, 230, 3, -1/50, 50, 230, 50, 230, 10, 0⟩

/-- C4: `move()` preserves horizontal containment: if `position.x` lies in
`[radius, W - radius]` before the step, it still does afterwards, for
every speed `dx` the bounce ranges can produce (`2 ≤ |dx| ≤ 4.4`) and
every wall-bounce draw `rx ∈ [20, 44]`, on any surface wide enough for
the ball (`W ≥ 2·radius + 8.8`). -/
theorem c4_horizontal_containment (b : Ball) (W H : ℚ) (rx ry : ℤ)
    (hrx1 : 20 ≤ rx) (hrx2 : rx ≤ 44)
    (hdx1 : 2 ≤ |b.dx|) (hdx2 : |b.dx| ≤ 22/5)
    (hW : 2 * (b.radius : ℚ) + 44/5 ≤ W)
    (hx1 : (b.radius : ℚ) ≤ b.x) (hx2 : b.x ≤ W - (b.radius : ℚ)) :
    (b.radius : ℚ) ≤ (b.move W H rx ry).x ∧
      (b.move W H rx ry).x ≤ W - (b.radius : ℚ) := by
  have hrx1Q : (20 : ℚ) ≤ (rx : ℚ) := by exact_mod_cast hrx1
  have hrx2Q : (rx : ℚ) ≤ 44 := by exact_mod_cast hrx2
  have habs := abs_le.mp hdx2
  rcases le_abs.mp hdx1 with hdxp | hdxn <;>
    simp only [Ball.move] <;> split_ifs with hc hs <;> constructor <;>
    first
      | linarith
      | (rcases hc with h | h <;> linarith)
      | (push_neg at hc; linarith [hc.1, hc.2])

/-- Witness for C4 at the concrete right-wall ball. -/
theorem c4_horizontal_containment_witness :
    (bWall.radius : ℚ) ≤ (bWall.move 240 320 30 (-30)).x ∧
      (bWall.move 240 320 30 (-30)).x ≤ 240 - (bWall.radius : ℚ) :=
  c4_horizontal_containment bWall 240 320 30 (-30) (by norm_num)
    (by norm_num) (by norm_num [bWall]) (by norm_num [bWall])
    (by norm_num [bWall]) (by norm_num [bWall]) (by norm_num [bWall])

/-- C5 (counterexample): the ground bound can be exceeded.  With
`H - radius = 230`, a ball at `y = 230` with `dy = -1/50` does not trigger
the ground bounce (`y + dy < 230`), so gravity is added and
`y` becomes `230 + 3/100 > 230`: `position.y ≤ H - radius` before the
step but not after. -/
theorem c5_ground_bound_exceeded :
    bGround.y ≤ 240 - (bGround.radius : ℚ) ∧
      240 - (bGround.radius : ℚ) < (bGround.move 240 240 30 (-30)).y := by
  constructor <;> norm_num [bGround, Ball.move]

/-- C5 (amended): if `position.y ≤ H - radius` before `move()`, then
afterwards `position.y < H - radius + 1/20`: the ground bound may be
overshot, but by strictly less than one gravity increment (0.05); the
claim as stated fails only on that sliver.  There is no ceiling bound. -/
theorem c5_ground_bound_almost_preserved (b : Ball) (W H : ℚ) (rx ry : ℤ)
    (hry2 : ry ≤ -21) (hy : b.y ≤ H - (b.radius : ℚ)) :
    (b.move W H rx ry).y < H - (b.radius : ℚ) + 1/20 := by
  have hry2Q : (ry : ℚ) ≤ -21 := by exact_mod_cast hry2
  simp only [Ball.move]
  split_ifs with hg <;> linarith

/-- Witness for C5 (amended) at the concrete ground ball. -/
theorem c5_ground_bound_almost_preserved_witness :
    (bGround.move 240 240 30 (-30)).y < 240 - (bGround.radius : ℚ) + 1/20 :=
  c5_ground_bound_almost_preserved bGround 240 240 30 (-30) (by norm_num)
    (by norm_num [bGround])

/-- C6: wall-bounce reversal.  If `dx > 0` and `x + dx` reaches or exceeds
the right bound `W - radius`, the `dx` resulting from `move()` equals
`-(rx/10)` — a freshly drawn magnitude, not the preserved one — and is
strictly negative; symmetrically, if `dx < 0` and `x + dx` reaches or
crosses the left bound `radius`, the resulting `dx` equals `rx/10` and is
strictly positive. -/
theorem c6_bounce_reversal (b : Ball) (W H : ℚ) (rx ry : ℤ)
    (hrx1 : 20 ≤ rx) :
    (0 < b.dx → W - (b.radius : ℚ) ≤ b.x + b.dx →
      (b.move W H rx ry).dx = -((rx : ℚ) / 10) ∧
        (b.move W H rx ry).dx < 0) ∧
    (b.dx < 0 → b.x + b.dx ≤ (b.radius : ℚ) →
      (b.move W H rx ry).dx = (rx : ℚ) / 10 ∧
        0 < (b.move W H rx ry).dx) := by
  have hrx1Q : (20 : ℚ) ≤ (rx : ℚ) := by exact_mod_cast hrx1
  constructor
  · intro hdx hhit
    simp only [Ball.move, if_pos (Or.inr hhit), if_pos hdx]
    constructor <;> [ring; nlinarith]
  · intro hdx hhit
    simp only [Ball.move, if_pos (Or.inl hhit), if_neg (not_lt.mpr hdx.le)]
    constructor <;> [ring; nlinarith]

/-- Witness for C6 at the concrete right-wall ball. -/
theorem c6_bounce_reversal_witness :
    (bWall.move 240 320 30 (-30)).dx = -((30 : ℚ) / 10) ∧
      (bWall.move 240 320 30 (-30)).dx < 0 :=
  (c6_bounce_reversal bWall 240 320 30 (-30) (by norm_num)).1
    (by norm_num [bWall]) (by norm_num [bWall])

/-- C9: no rectangle cleared by `erase()` meets the box subsequently
filled by `draw()` for the same ball in the same tick: each trailing strip
stops exactly at the near edge of the new box, for every cell movement,
including axis-aligned movements and movements larger than the box side. -/
theorem c9_erase_misses_draw_box (b : Ball) (R : Rect)
    (hR : R ∈ b.eraseRects) (p : ℤ × ℤ) (hp : R.mem p) :
    ¬ b.drawRect.mem p := by
  simp only [Ball.eraseRects, List.mem_append] at hR
  simp only [Ball.drawRect, Rect.mem]
  rcases hR with hR | hR <;>
    split_ifs at hR <;>
    simp only [List.mem_singleton, List.not_mem_nil] at hR <;>
    first
      | exact hR.elim
      | (subst hR; simp only [Rect.mem] at hp; omega)

/-- Witness for C9 at a concrete ball, erase rectangle and pixel. -/
theorem c9_erase_misses_draw_box_witness :
    ¬ (Ball.drawRect bCorner).mem ((-6, -6) : ℤ × ℤ) :=
  c9_erase_misses_draw_box bCorner ⟨-6, -6, 1, 12⟩ (by decide)
    ((-6, -6) : ℤ × ℤ) (by decide)

/-- C2 (counterexample): for the movement `(mx, my) = (1, 1)` of a radius-6
ball, the two rectangles cleared by `erase()` are not disjoint: both
contain the corner pixel `(-6, -6)`.  The claimed disjointness fails this
way for every movement with `mx ≠ 0` and `my ≠ 0`. -/
theorem c2_erase_rects_not_disjoint :
    Ball.eraseRects bCorner = [⟨-6, -6, 1, 12⟩, ⟨-6, -6, 12, 1⟩] ∧
    Rect.mem ⟨-6, -6, 1, 12⟩ ((-6, -6) : ℤ × ℤ) ∧
    Rect.mem ⟨-6, -6, 12, 1⟩ ((-6, -6) : ℤ × ℤ) := by decide

/-- C2 (amended): for a ball whose cell moved by `(mx, my)` with
`mx ≠ 0`, `my ≠ 0` and `|mx|, |my| ≤ 2·radius` (true of every movement a
single tick of the physics can produce), `erase()` clears exactly two
rectangles — overlapping in an `|mx|×|my|` corner rather than disjoint —
whose union is `(old box) \ (new box)`; `draw()` exactly covers the new
box; and the union of all erase and draw rectangles equals the union of
the old and new boxes, with no pixel outside that union touched. -/
theorem c2_erase_draw_partition (b : Ball)
    (hmx : b.ix ≠ b.ox) (hmy : b.iy ≠ b.oy)
    (hmx2 : |b.ix - b.ox| ≤ 2 * (b.radius : ℤ))
    (hmy2 : |b.iy - b.oy| ≤ 2 * (b.radius : ℤ)) :
    b.eraseRects.length = 2 ∧
    (∀ p : ℤ × ℤ, b.erasedAt p ↔
      (inBox b.ox b.oy (b.radius : ℤ) p ∧
        ¬ inBox b.ix b.iy (b.radius : ℤ) p)) ∧
    (∀ p : ℤ × ℤ, b.drawRect.mem p ↔ inBox b.ix b.iy (b.radius : ℤ) p) ∧
    (∀ p : ℤ × ℤ, (b.erasedAt p ∨ b.drawRect.mem p) ↔
      (inBox b.ox b.oy (b.radius : ℤ) p ∨
        inBox b.ix b.iy (b.radius : ℤ) p)) := by
  rw [abs_le] at hmx2 hmy2
  have cx : 0 < b.ix - b.ox ∨ b.ix - b.ox < 0 := by omega
  have cy : 0 < b.iy - b.oy ∨ b.iy - b.oy < 0 := by omega
  rcases cx with hx | hx <;> rcases cy with hy | hy <;>
    refine ⟨?_, fun p => ?_, fun p => ?_, fun p => ?_⟩ <;>
    simp only [Ball.erasedAt, Ball.eraseRects, Ball.drawRect, hx, hy,
      hx.not_lt, hy.not_lt, if_true, if_false, ite_true, ite_false,
      List.mem_append, List.mem_singleton, List.not_mem_nil,
      List.length_append, List.length_singleton, Rect.mem, inBox,
      exists_eq_or_imp, exists_eq_left, or_false, false_or] <;>
    omega

/-- Witness for C2 (amended) at the concrete radius-6 ball whose cell
moved by `(1, 1)`. -/
theorem c2_erase_draw_partition_witness :
    (Ball.eraseRects bCorner).length = 2 :=
  (c2_erase_draw_partition bCorner (by decide) (by decide) (by decide)
    (by decide)).1

/-- A concrete simulation state with one ball, last ticked at 100 ms. -/
def s1 : SimState := ⟨100, [bCorner]⟩

/-- C7: rate gating.  If a tick executed at `t1` (so `lastms = t1`) and
`loop()` runs again at `t2` with `t2 - t1` at most the 5 ms threshold the
code tests (`ms - lastms <= 5`), the second call leaves the state — every
ball field and `lastms` — unchanged and issues no operations at all. -/
theorem c7_rate_gating (W H : ℚ) (rs : ℕ → ℤ × ℤ) (s : SimState)
    (t1 t2 : ℕ) (h1 : s.lastms = t1) (hle : t1 ≤ t2) (ht : t2 < 2 ^ 32)
    (hdiff : t2 - t1 ≤ 5) :
    loopStep W H rs s t2 = (s, []) := by
  have hg : uldiff t2 s.lastms ≤ 5 := by
    subst h1; unfold uldiff; omega
  simp [loopStep, hg]

/-- Witness for C7 at a concrete state and pair of times. -/
theorem c7_rate_gating_witness :
    loopStep 240 320 (fun _ => (30, -30)) s1 103 = (s1, []) :=
  c7_rate_gating 240 320 (fun _ => (30, -30)) s1 100 103 rfl (by decide)
    (by decide) (by decide)

/-- C8: every executed tick performs three strictly separate full passes
over the ball array: the trace is all the move operations, then all the
erase operations, then all the draw operations, each pass visiting the
balls in the same stable index order `0, …, n-1`; in particular the erase
pass and the draw pass iterate in identical order and operations of
different balls are never interleaved across passes. -/
theorem c8_three_separate_passes (W H : ℚ) (rs : ℕ → ℤ × ℤ) (s : SimState)
    (ms : ℕ) (h : ¬ uldiff ms s.lastms ≤ 5) :
    ((loopStep W H rs s ms).2.map Ev.kind =
        List.replicate s.balls.length 0 ++
          List.replicate s.balls.length 1 ++
            List.replicate s.balls.length 2) ∧
    ((loopStep W H rs s ms).2.map Ev.idx =
        List.range' 0 s.balls.length ++ List.range' 0 s.balls.length ++
          List.range' 0 s.balls.length) := by
  constructor <;>
    simp only [loopStep, if_neg h, List.map_append, mapFrom_map, Ev.kind,
      Ev.idx, mapFrom_const, mapFrom_idx, mapFrom_length]

/-- Witness for C8 at a concrete one-ball state and time. -/
theorem c8_three_separate_passes_witness :
    (loopStep 240 320 (fun _ => (30, -30)) s1 110).2.map Ev.kind =
      List.replicate 1 0 ++ List.replicate 1 1 ++ List.replicate 1 2 :=
  (c8_three_separate_passes 240 320 (fun _ => (30, -30)) s1 110
    (by decide)).1

/-- C10: every fill rectangle issued by `erase()` and `draw()` has strictly
positive width and height, given the constructor bound `radius ≥ 6`:
each `erase()` branch is guarded so the movement distance passed as the
width/height is strictly positive, and `draw()` passes `radius*2`. -/
theorem c10_fill_dimensions_positive (b : Ball) (hr : 6 ≤ b.radius) :
    ∀ R ∈ b.eraseRects ++ [b.drawRect], 0 < R.w ∧ 0 < R.h := by
  intro R hR
  simp only [Ball.eraseRects, Ball.drawRect, List.mem_append,
    List.mem_singleton] at hR
  have hr6 : (6 : ℤ) ≤ (b.radius : ℤ) := by exact_mod_cast hr
  rcases hR with (hR | hR) | hR
  · split_ifs at hR <;>
      simp only [List.mem_singleton, List.not_mem_nil] at hR <;>
      first
        | exact hR.elim
        | (subst hR; constructor <;> simp <;> omega)
  · split_ifs at hR <;>
      simp only [List.mem_singleton, List.not_mem_nil] at hR <;>
      first
        | exact hR.elim
        | (subst hR; constructor <;> simp <;> omega)
  · subst hR; constructor <;> simp <;> omega

/-- Witness for C10 at a concrete ball and rectangle. -/
theorem c10_fill_dimensions_positive_witness :
    0 < (Ball.drawRect bCorner).w ∧ 0 < (Ball.drawRect bCorner).h :=
  c10_fill_dimensions_positive bCorner (by decide) (Ball.drawRect bCorner)
    (by decide)

end BouncingBoxes
